import Mathlib

/-!
Shallow embedding of the static-site generator in `generate.py`.

Strings are modelled through their underlying character lists (`String.data`),
because the generator's transformations (`str.lower`, `str.strip`,
`str.replace`, regex substitutions) are character-wise; the numeric `col`
multiplier (a Python float holding a small decimal) is modelled as an exact
rational, and Python's `int(...)` truncation is modelled by `Int.tdiv` on the
rational's numerator and denominator.
-/

namespace SiteGen

/-- Test for the slug alphabet `[a-z0-9]` of `slugify`'s regexes. -/
def isLowerAlnum (c : Char) : Bool :=
  ('a' ≤ c && c ≤ 'z') || ('0' ≤ c && c ≤ '9')

/-- Python `str.lower()` on a character list (ASCII case mapping). -/
def pyLowerData (l : List Char) : List Char := l.map Char.toLower

/-- Python `str.upper()` (used by `load_cities_from_csv` on the state code). -/
def pyUpper (s : String) : String := String.mk (s.data.map Char.toUpper)

/-- Drop characters satisfying `p` from both ends, as Python `str.strip`. -/
def stripWhile (p : Char → Bool) (l : List Char) : List Char :=
  ((l.dropWhile p).reverse.dropWhile p).reverse

/-- Python `str.strip()` with no argument (whitespace at both ends). -/
def pyStrip (s : String) : String := String.mk (stripWhile Char.isWhitespace s.data)

/-- The substitution `re.sub(r"&", " and ", s)` of `slugify`. -/
def replaceAmp : List Char → List Char
  | [] => []
  | c :: t =>
    if c = '&' then ' ' :: 'a' :: 'n' :: 'd' :: ' ' :: replaceAmp t
    else c :: replaceAmp t

/-- Replace every maximal run of characters not satisfying `keep` by a single
hyphen; the boolean flag records whether a run is currently open. With
`keep := isLowerAlnum` this is `re.sub(r"[^a-z0-9]+", "-", s)`, and with
`keep c := c != '-'` it is `re.sub(r"-{2,}", "-", s)` (same effect: every
maximal hyphen run becomes one hyphen). -/
def squeezeRuns (keep : Char → Bool) : Bool → List Char → List Char
  | _, [] => []
  | inRun, c :: cs =>
    if keep c then c :: squeezeRuns keep false cs
    else if inRun then squeezeRuns keep true cs
    else '-' :: squeezeRuns keep true cs

/-- The first four stages of `slugify`: strip + lower, `&` to " and ",
non-alphanumeric runs to "-", collapse hyphen runs. -/
def preSlug (l : List Char) : List Char :=
  squeezeRuns (fun c => c != '-') false
    (squeezeRuns isLowerAlnum false
      (replaceAmp (pyLowerData (stripWhile Char.isWhitespace l))))

/-- `slugify` of `generate.py` on a character list: the staged rewrites,
then strip leading/trailing hyphens. -/
def slugifyData (l : List Char) : List Char :=
  stripWhile (fun c => c == '-') (preSlug l)

/-- `slugify` of `generate.py`. -/
def slugify (s : String) : String := String.mk (slugifyData s.data)

/-- `city_subdomain_slug` of `generate.py`:
`f"{city}{st}".lower().replace(" ", "")` — lowercase the concatenation and
remove every space character (`str.replace` with a one-character pattern and
empty replacement removes exactly those characters). -/
def city_subdomain_slug (city st : String) : String :=
  String.mk ((pyLowerData (city.data ++ st.data)).filter (fun c => c != ' '))

/-- `CONFIG.brand_name` of `generate.py`. -/
def brand_name : String := "Emergency Maintenance Experts"

/-- `CONFIG.cost_low` of `generate.py`. -/
def cost_low : Int := 80

/-- `CONFIG.cost_high` of `generate.py`. -/
def cost_high : Int := 250

/-- `CONFIG.cost_title` of `generate.py`. -/
def cost_title : String := "Emergency Maintenance Cost"

/-- `CONFIG.howto_title` of `generate.py`. -/
def howto_title : String := "How Emergency Maintenance Works"

/-- `get_domain_name` of `generate.py`:
`"https://" + brand_name.lower().replace(" ", "") + ".com"`. -/
def get_domain_name : String :=
  "https://" ++ String.mk ((pyLowerData brand_name.data).filter (fun c => c != ' ')) ++ ".com"

/-- `SITE_ORIGIN = get_domain_name()` of `generate.py` (the env variable
mentioned in the module docstring is never read). -/
def SITE_ORIGIN : String := get_domain_name

/-- The five build modes accepted by the entrypoint (`VALID_MODES`). -/
inductive Mode
  | regular
  | cost
  | state
  | subdomain
  | regular_city_only
  deriving DecidableEq

/-- `MODE_FEATURES[mode]["cost"]` of `generate.py`. -/
def feature_cost : Mode → Bool
  | .regular => true
  | .cost => true
  | _ => false

/-- `MODE_FEATURES[mode]["howto"]` of `generate.py`. -/
def feature_howto : Mode → Bool
  | .regular => true
  | _ => false

/-- `MODE_FEATURES[mode]["contact"]` of `generate.py` (true for all modes). -/
def feature_contact : Mode → Bool
  | _ => true

/-- `rel_city_path_regular` of `generate.py`. -/
def rel_city_path_regular (city st : String) : String :=
  "/" ++ slugify city ++ "-" ++ slugify st ++ "/"

/-- `rel_city_path_state` of `generate.py`. -/
def rel_city_path_state (city st : String) : String :=
  "/" ++ slugify st ++ "/" ++ slugify city ++ "/"

/-- Boolean list-level test used to model Python `str.startswith`. -/
def listStartsWith : List Char → List Char → Bool
  | _, [] => true
  | [], _ :: _ => false
  | c :: cs, p :: ps => c == p && listStartsWith cs ps

/-- Python `s.startswith(pat)`. -/
def strStartsWith (s pat : String) : Bool := listStartsWith s.data pat.data

/-- Remove every (leftmost-first) occurrence of `pat`, as Python
`s.replace(pat, "")`; the fuel argument is the input length, which bounds
the number of scanning steps. -/
def removeOccAux (pat : List Char) : Nat → List Char → List Char
  | 0, l => l
  | _ + 1, [] => []
  | fuel + 1, c :: cs =>
    if !pat.isEmpty && listStartsWith (c :: cs) pat then
      removeOccAux pat fuel (cs.drop (pat.length - 1))
    else c :: removeOccAux pat fuel cs

/-- Python `s.replace(pat, "")`. -/
def pyRemoveAll (s pat : String) : String :=
  String.mk (removeOccAux pat.data s.data.length s.data)

/-- The host extraction inside `abs_city_origin_subdomain`:
`origin.replace("https://", "").replace("http://", "").split("/")[0]`
(the first split component is the prefix before the first `/`). -/
def hostOfOrigin (origin : String) : String :=
  String.mk ((pyRemoveAll (pyRemoveAll origin "https://") "http://").data.takeWhile
    (fun c => c != '/'))

/-- The `base` local of `abs_city_origin_subdomain`:
`SUBDOMAIN_BASE or (host-of-origin if SITE_ORIGIN else "")`; `subBase` is the
processed `SUBDOMAIN_BASE` environment value (possibly empty). -/
def subdomain_base (subBase : String) : String :=
  if subBase ≠ "" then subBase
  else if SITE_ORIGIN ≠ "" then hostOfOrigin SITE_ORIGIN else ""

/-- `abs_city_origin_subdomain` of `generate.py`. -/
def abs_city_origin_subdomain (subBase slug : String) : String :=
  if subdomain_base subBase = "" then "/" ++ slug ++ "/"
  else "https://" ++ slug ++ "." ++ subdomain_base subBase ++ "/"

/-- `href_city` of `generate.py`. -/
def href_city (mode : Mode) (subBase city st : String) : String :=
  match mode with
  | .state => rel_city_path_state city st
  | .subdomain => abs_city_origin_subdomain subBase (city_subdomain_slug city st)
  | _ => rel_city_path_regular city st

/-- `canonical_for` of `generate.py`. -/
def canonical_for (mode : Mode) (p : String) : String :=
  if strStartsWith p "http://" || strStartsWith p "https://" then p
  else if SITE_ORIGIN ≠ "" then SITE_ORIGIN ++ p
  else p

/-- The output path (relative to the build root) at which each mode's build
function writes a city page: `build_regular`/`build_cost`/
`build_regular_city_only` write `out / f"{slugify(city)}-{slugify(st)}"`,
`build_state` writes `out / slugify(st) / slugify(city)`, and
`build_subdomain` writes `out / city_subdomain_slug(city, st)`. -/
def city_output_path (mode : Mode) (city st : String) : String :=
  match mode with
  | .state => rel_city_path_state city st
  | .subdomain => "/" ++ city_subdomain_slug city st ++ "/"
  | _ => rel_city_path_regular city st

/-- The canonical URL emitted on a city page: the build functions pass the
relative path (or, in subdomain mode, `abs_city_origin_subdomain`) through
`canonical_for` inside `base_html`. -/
def city_canonical (mode : Mode) (subBase city st : String) : String :=
  match mode with
  | .subdomain =>
    canonical_for mode (abs_city_origin_subdomain subBase (city_subdomain_slug city st))
  | _ => canonical_for mode (city_output_path mode city st)

/-- A loaded CSV record `(city, state, col)` (`CityWithCol` in the source). -/
abbrev CityRec := String × String × Rat

/-- `cost_slug()` of `generate.py`. -/
def cost_slug : String := slugify cost_title

/-- `howto_slug()` of `generate.py`. -/
def howto_slug : String := slugify howto_title

/-- The sitemap URL list produced by `build_common` for a mode: `"/"`, then
the cost index, how-to and contact pages when the mode's feature flags
enable them. -/
def build_common_urls (mode : Mode) : List String :=
  ["/"]
    ++ (if feature_cost mode then ["/" ++ cost_slug ++ "/"] else [])
    ++ (if feature_howto mode then ["/" ++ howto_slug ++ "/"] else [])
    ++ (if feature_contact mode then ["/contact/"] else [])

/-- The sitemap URL list of `build_regular`: common pages then one URL per
city record, in input order. -/
def build_regular_urls (cities : List CityRec) : List String :=
  build_common_urls .regular ++ cities.map (fun r => rel_city_path_regular r.1 r.2.1)

/-- The per-city cost-page path `f"/cost/{slugify(city)}-{slugify(st)}/"`
appended by `build_cost`. -/
def cost_city_rel_path (city st : String) : String :=
  "/cost/" ++ slugify city ++ "-" ++ slugify st ++ "/"

/-- The sitemap URL list of `build_cost`: common pages, one city page per
record, then one cost page per record. -/
def build_cost_urls (cities : List CityRec) : List String :=
  build_common_urls .cost
    ++ cities.map (fun r => rel_city_path_regular r.1 r.2.1)
    ++ cities.map (fun r => cost_city_rel_path r.1 r.2.1)

/-- Append `v` to the group of key `k` in an insertion-ordered association
list of groups, adding a new group at the end if the key is absent — the
Python `dict` update pattern shared by `generate_state_to_col_map` and
`cities_by_state`. -/
def groupInsert {α : Type} (m : List (String × List α)) (k : String) (v : α) :
    List (String × List α) :=
  match m with
  | [] => [(k, [v])]
  | (k2, l) :: t => if k2 = k then (k2, l ++ [v]) :: t else (k2, l) :: groupInsert t k v

/-- Look up a group by key; absent keys give the empty list. -/
def glist {α : Type} : List (String × List α) → String → List α
  | [], _ => []
  | (k2, l) :: t, k => if k2 = k then l else glist t k

/-- Look up a key in an association list (Python `dict` access). -/
def olook {β : Type} : List (String × β) → String → Option β
  | [], _ => none
  | (k2, v) :: t, k => if k2 = k then some v else olook t k

/-- The `total_state_cols` dict built inside `generate_state_to_col_map`:
for each record, append its `col` to its state's list. -/
def total_state_cols (cities : List CityRec) : List (String × List Rat) :=
  cities.foldl (fun m r => groupInsert m r.2.1 r.2.2) []

/-- `generate_state_to_col_map` of `generate.py`: map each state to
`sum(cols) / len(cols)` over its collected `col` values. -/
def generate_state_to_col_map (cities : List CityRec) : List (String × Rat) :=
  (total_state_cols cities).map (fun g => (g.1, g.2.sum / (g.2.length : Rat)))

/-- Lexicographic comparison of character lists by code point — the order
Python uses to compare the `key=lambda t: t[0].lower()` sort keys. -/
def charListLe : List Char → List Char → Bool
  | [], _ => true
  | _ :: _, [] => false
  | a :: xs, b :: ys =>
    if a.toNat < b.toNat then true
    else if b.toNat < a.toNat then false
    else charListLe xs ys

/-- The sort relation of `cities_by_state`: compare records by
`city.lower()`. -/
def cityLE (a b : CityRec) : Prop :=
  charListLe (pyLowerData a.1.data) (pyLowerData b.1.data) = true

instance : DecidableRel cityLE := fun a b => inferInstanceAs (Decidable (_ = true))

/-- `cities_by_state` of `generate.py`: group records by state code in first
appearance order, then sort each group by lowercased city name. -/
def cities_by_state (cities : List CityRec) : List (String × List CityRec) :=
  (cities.foldl (fun m r => groupInsert m r.2.1 r) []).map
    (fun g => (g.1, List.insertionSort cityLE g.2))

/-- The sitemap URL list of `build_state`: common pages, then for each state
group its `/{st}/` page followed by its `/{st}/{city}/` pages. -/
def build_state_urls (cities : List CityRec) : List String :=
  build_common_urls .state
    ++ (cities_by_state cities).flatMap
      (fun g =>
        ("/" ++ slugify g.1 ++ "/") ::
          g.2.map (fun r => "/" ++ slugify g.1 ++ "/" ++ slugify r.1 ++ "/"))

/-- Every file path (relative to the output root) written by
`build_subdomain`: `contact/index.html` (from `build_common`), the root
`index.html`, per city an `index.html` and a `contact/index.html` inside the
city's subdirectory, then the single root `robots.txt` and `sitemap.xml`. -/
def build_subdomain_files (cities : List CityRec) : List String :=
  ["contact/index.html", "index.html"]
    ++ cities.flatMap (fun r =>
        [city_subdomain_slug r.1 r.2.1 ++ "/index.html",
         city_subdomain_slug r.1 r.2.1 ++ "/contact/index.html"])
    ++ ["robots.txt", "sitemap.xml"]

/-- The sitemap URL list of `build_subdomain`: common pages, then per city
its absolute canonical and the canonical of its contact page. -/
def build_subdomain_urls (subBase : String) (cities : List CityRec) : List String :=
  build_common_urls .subdomain
    ++ cities.flatMap (fun r =>
        [abs_city_origin_subdomain subBase (city_subdomain_slug r.1 r.2.1),
         abs_city_origin_subdomain subBase (city_subdomain_slug r.1 r.2.1) ++ "contact/"])

/-- `robots_txt` of `generate.py`. -/
def robots_txt (mode : Mode) : String :=
  "User-agent: *\nAllow: /\nSitemap: " ++ canonical_for mode "/sitemap.xml" ++ "\n"

/-- Read a digit list as a natural number. -/
def natOfDigits (l : List Char) : Nat :=
  l.foldl (fun n c => 10 * n + (c.toNat - '0'.toNat)) 0

/-- The decimal subset of Python `float(...)` relevant to the `col` CSV
column: optional sign, an integer part and an optional fractional part
(scientific notation and specials are outside the inputs this model is used
on), evaluated exactly as a rational. -/
def parseFloat? (s : String) : Option Rat :=
  let sl :=
    match s.data with
    | '-' :: t => (true, t)
    | '+' :: t => (false, t)
    | l => (false, l)
  let neg := sl.1
  let l := sl.2
  let ip := l.takeWhile Char.isDigit
  let rest := l.dropWhile Char.isDigit
  match rest with
  | [] =>
    if ip.isEmpty then none
    else some (if neg then -(natOfDigits ip : Rat) else (natOfDigits ip : Rat))
  | '.' :: fr =>
    let fd := fr.takeWhile Char.isDigit
    if !(fr.dropWhile Char.isDigit).isEmpty then none
    else if ip.isEmpty && fd.isEmpty then none
    else
      let v : Rat := (natOfDigits ip : Rat) + (natOfDigits fd : Rat) / (10 : Rat) ^ fd.length
      some (if neg then -v else v)
  | _ => none

/-- The row loop of `load_cities_from_csv`: strip the fields, uppercase the
state, reject empty fields and unparseable `col` values with the offending
CSV line number, and otherwise accumulate `(city, state, col)`. -/
def load_cities_go : List (String × String × String) → Nat → Except String (List CityRec)
  | [], _ => .ok []
  | (c, s, colRaw) :: t, i =>
    let city := pyStrip c
    let st := pyUpper (pyStrip s)
    let cr := pyStrip colRaw
    if city = "" || st = "" || cr = "" then
      .error ("Missing city/state/col at CSV line " ++ toString i)
    else
      match parseFloat? cr with
      | none => .error ("Invalid col at CSV line " ++ toString i)
      | some col => (load_cities_go t (i + 1)).map (fun rest => (city, st, col) :: rest)

/-- `load_cities_from_csv` of `generate.py` on already-split rows
`(city, state, col)`; data rows are numbered from 2 as in the source. -/
def load_cities_from_csv (rows : List (String × String × String)) :
    Except String (List CityRec) :=
  load_cities_go rows 2

/-- Python `int(base * col)` for an integer `base` and rational `col`:
truncation toward zero of the exact product, computed as a truncated
integer division by the (positive) denominator. -/
def pyTruncMulInt (base : Int) (col : Rat) : Int :=
  (base * col.num).tdiv (col.den : Int)

/-- The two scaled figures `int(CONFIG.cost_low * col)` and
`int(CONFIG.cost_high * col)` displayed by `location_cost_section`. -/
def location_cost_range (col : Rat) : Int × Int :=
  (pyTruncMulInt cost_low col, pyTruncMulInt cost_high col)

/-- The `(city, state)` pairs listed by `homepage_html`'s service-area
section: `for c, s, _ in CITIES`, i.e. in input (CSV) order. -/
def homepage_city_list (cities : List CityRec) : List (String × String) :=
  cities.map (fun r => (r.1, r.2.1))

/-- The `(city, state)` pairs listed by `cost_page_html`'s city index:
`for c, s, _ in CITIES`, i.e. in input (CSV) order. -/
def cost_index_city_list (cities : List CityRec) : List (String × String) :=
  cities.map (fun r => (r.1, r.2.1))

/-- The `(city, state)` pairs listed by `state_page_html` for one state:
the state's group from `cities_by_state` (sorted by lowercased city). -/
def state_page_city_list (cities : List CityRec) (st : String) :
    List (String × String) :=
  (glist (cities_by_state cities) st).map (fun r => (r.1, r.2.1))

/-- The `col` values of the records with the given state code, in input
order. -/
def colsOf (cities : List CityRec) (st : String) : List Rat :=
  (cities.filter (fun r => r.2.1 == st)).map (fun r => r.2.2)

/-- Modelled from the spec: the spec's `subdomain_label(city, state)`
("concatenates city and state with all whitespace removed and lowercases");
stated for comparison with the source's `city_subdomain_slug`, which removes
only the space character. -/
def subdomain_label_spec (city st : String) : String :=
  String.mk ((pyLowerData (city.data ++ st.data)).filter (fun c => !c.isWhitespace))

/-- Characters a dollar-amount token may contain after the `$`. -/
def amtChar (c : Char) : Bool := c.isDigit || c == ','

/-- Insert a thousands separator before a digit whose (right-based) index is
a positive multiple of three; input and output are reversed digit lists. -/
def commasRev : Nat → List Char → List Char
  | _, [] => []
  | k, c :: cs =>
    if k != 0 && k % 3 == 0 then ',' :: c :: commasRev (k + 1) cs
    else c :: commasRev (k + 1) cs

/-- Render a natural number with thousands separators (`f"{n:,}"`). -/
def renderAmount (n : Nat) : List Char :=
  (commasRev 0 (Nat.toDigits 10 n).reverse).reverse

/-- Multiply an embedded amount by the multiplier and truncate to an
integer, exactly on the rational multiplier. -/
def scaledAmount (m : Rat) (n : Nat) : Nat :=
  ((m.num * (n : Int)).tdiv (m.den : Int)).toNat

/-- Modelled from the spec: the scanning loop of `scale_embedded_amounts`
(no such function exists in the source; the spec's Cost Scaler demands it).
At each `$` the maximal following run of digits and commas is examined; it
is a token exactly when it is a canonically comma-grouped integer (the
renderer's own output format — forced by the spec's requirement that a
multiplier of exactly 1.0 leaves every text unchanged), in which case it is
replaced by the scaled, re-grouped value; anything else is copied verbatim.
The fuel is the input length, which bounds the number of scanning steps. -/
def scaleAux (m : Rat) : Nat → List Char → List Char
  | 0, l => l
  | _ + 1, [] => []
  | fuel + 1, c :: cs =>
    if c = '$' then
      if !(cs.takeWhile amtChar).isEmpty
          && (cs.takeWhile amtChar
            == renderAmount (natOfDigits ((cs.takeWhile amtChar).filter Char.isDigit))) then
        '$' ::
          (renderAmount (scaledAmount m (natOfDigits ((cs.takeWhile amtChar).filter Char.isDigit)))
            ++ scaleAux m fuel (cs.dropWhile amtChar))
      else
        '$' :: (cs.takeWhile amtChar ++ scaleAux m fuel (cs.dropWhile amtChar))
    else c :: scaleAux m fuel cs

/-- Boolean test that a text contains no dollar-amount token at all (every
`$` is followed by no digit or comma): on such texts the scaler is the
identity for every multiplier. -/
def noToken : List Char → Bool
  | [] => true
  | c :: cs => (c != '$' || (cs.takeWhile amtChar).isEmpty) && noToken cs

/-- Modelled from the spec: `scale_embedded_amounts(text, multiplier)`. -/
def scale_embedded_amounts (text : String) (m : Rat) : String :=
  String.mk (scaleAux m text.data.length text.data)

/-- Boolean test that a character list avoids adjacent hyphens. -/
def noDoubleHyphen : List Char → Bool
  | [] => true
  | [_] => true
  | a :: b :: t => !(a == '-' && b == '-') && noDoubleHyphen (b :: t)

/-- Boolean test for membership in the language
`[a-z0-9]+(-[a-z0-9]+)*` or the empty string: slug-alphabet characters
only, no hyphen at either end, no two adjacent hyphens. -/
def slugPatternOk (l : List Char) : Bool :=
  l.all (fun c => isLowerAlnum c || c == '-')
    && (match l.head? with | some c => c != '-' | none => true)
    && (match l.getLast? with | some c => c != '-' | none => true)
    && noDoubleHyphen l

/-- Boolean test that listed `(city, state)` pairs are in case-insensitive
alphabetical order by city. -/
def sortedByCityCI : List (String × String) → Bool
  | [] => true
  | [_] => true
  | a :: b :: t =>
    charListLe (pyLowerData a.1.data) (pyLowerData b.1.data) && sortedByCityCI (b :: t)

/-- The per-mode key that determines a city page's output path: the combined
flat slug for the flat modes, the `(state slug, city slug)` pair for state
mode, and the subdomain label for subdomain mode. -/
def cityPathKey (mode : Mode) (city st : String) : String × String :=
  match mode with
  | .state => (slugify st, slugify city)
  | .subdomain => (city_subdomain_slug city st, "")
  | _ => (slugify city ++ "-" ++ slugify st, "")

/-- The two-record input of the spec's end-to-end `state`-mode scenario. -/
def demo_cities : List CityRec := [("Austin", "TX", 11 / 10), ("Dallas", "TX", 9 / 10)]

/-- A two-record input whose CSV order is not alphabetical. -/
def demo_unsorted : List CityRec := [("Dallas", "TX", 1), ("Austin", "TX", 1)]

theorem noDoubleHyphen_tail {a : Char} {t : List Char}
    (h : noDoubleHyphen (a :: t) = true) : noDoubleHyphen t = true := by
  cases t with
  | nil => rfl
  | cons b u =>
    simp only [noDoubleHyphen, Bool.and_eq_true] at h
    exact h.2

theorem noDoubleHyphen_append_left {a b : List Char}
    (h : noDoubleHyphen (a ++ b) = true) : noDoubleHyphen a = true := by
  induction a with
  | nil => rfl
  | cons x xs ih =>
    cases xs with
    | nil => rfl
    | cons y ys =>
      simp only [List.cons_append] at h
      simp only [noDoubleHyphen, Bool.and_eq_true] at h ⊢
      refine ⟨h.1, ?_⟩
      have h2 : noDoubleHyphen ((y :: ys) ++ b) = true := by
        simp only [List.cons_append]
        exact h.2
      have h3 := ih h2
      simpa using h3

theorem noDoubleHyphen_append_right {a b : List Char}
    (h : noDoubleHyphen (a ++ b) = true) : noDoubleHyphen b = true := by
  induction a with
  | nil => exact h
  | cons x xs ih =>
    refine ih (noDoubleHyphen_tail (a := x) ?_)
    simpa using h

theorem mem_squeezeRuns {keep : Char → Bool} {c : Char} :
    ∀ {b : Bool} {l : List Char}, c ∈ squeezeRuns keep b l → c ∈ l ∨ c = '-' := by
  intro b l
  induction l generalizing b with
  | nil => intro h; cases h
  | cons x xs ih =>
    intro h
    by_cases hx : keep x
    · rw [show squeezeRuns keep b (x :: xs) = x :: squeezeRuns keep false xs from by
        simp [squeezeRuns, hx]] at h
      rcases List.mem_cons.mp h with rfl | h2
      · exact Or.inl (List.mem_cons_self _ _)
      · rcases ih h2 with h3 | h3
        · exact Or.inl (List.mem_cons_of_mem _ h3)
        · exact Or.inr h3
    · cases b with
      | true =>
        rw [show squeezeRuns keep true (x :: xs) = squeezeRuns keep true xs from by
          simp [squeezeRuns, hx]] at h
        rcases ih h with h3 | h3
        · exact Or.inl (List.mem_cons_of_mem _ h3)
        · exact Or.inr h3
      | false =>
        rw [show squeezeRuns keep false (x :: xs) = '-' :: squeezeRuns keep true xs from by
          simp [squeezeRuns, hx]] at h
        rcases List.mem_cons.mp h with rfl | h2
        · exact Or.inr rfl
        · rcases ih h2 with h3 | h3
          · exact Or.inl (List.mem_cons_of_mem _ h3)
          · exact Or.inr h3

theorem mem_squeezeRuns_keep {keep : Char → Bool} {c : Char} :
    ∀ {b : Bool} {l : List Char}, c ∈ squeezeRuns keep b l → keep c = true ∨ c = '-' := by
  intro b l
  induction l generalizing b with
  | nil => intro h; cases h
  | cons x xs ih =>
    intro h
    by_cases hx : keep x
    · rw [show squeezeRuns keep b (x :: xs) = x :: squeezeRuns keep false xs from by
        simp [squeezeRuns, hx]] at h
      rcases List.mem_cons.mp h with rfl | h2
      · exact Or.inl hx
      · exact ih h2
    · cases b with
      | true =>
        rw [show squeezeRuns keep true (x :: xs) = squeezeRuns keep true xs from by
          simp [squeezeRuns, hx]] at h
        exact ih h
      | false =>
        rw [show squeezeRuns keep false (x :: xs) = '-' :: squeezeRuns keep true xs from by
          simp [squeezeRuns, hx]] at h
        rcases List.mem_cons.mp h with rfl | h2
        · exact Or.inr rfl
        · exact ih h2

theorem squeezeRuns_true_head {keep : Char → Bool} :
    ∀ {l : List Char} {c : Char} {t : List Char},
      squeezeRuns keep true l = c :: t → keep c = true := by
  intro l
  induction l with
  | nil => intro c t h; simp [squeezeRuns] at h
  | cons x xs ih =>
    intro c t h
    by_cases hx : keep x
    · rw [show squeezeRuns keep true (x :: xs) = x :: squeezeRuns keep false xs from by
        simp [squeezeRuns, hx]] at h
      cases h
      exact hx
    · rw [show squeezeRuns keep true (x :: xs) = squeezeRuns keep true xs from by
        simp [squeezeRuns, hx]] at h
      exact ih h

theorem noDoubleHyphen_squeezeRuns {keep : Char → Bool}
    (hkeep : ∀ c, keep c = true → c ≠ '-') :
    ∀ (l : List Char) (b : Bool), noDoubleHyphen (squeezeRuns keep b l) = true := by
  intro l
  induction l with
  | nil => intro b; rfl
  | cons x xs ih =>
    intro b
    by_cases hx : keep x
    · rw [show squeezeRuns keep b (x :: xs) = x :: squeezeRuns keep false xs from by
        simp [squeezeRuns, hx]]
      cases hsq : squeezeRuns keep false xs with
      | nil => rfl
      | cons y ys =>
        have htail := ih false
        rw [hsq] at htail
        simp only [noDoubleHyphen, Bool.and_eq_true]
        refine ⟨?_, htail⟩
        have hx2 := hkeep x hx
        simp [hx2]
    · cases b with
      | true =>
        rw [show squeezeRuns keep true (x :: xs) = squeezeRuns keep true xs from by
          simp [squeezeRuns, hx]]
        exact ih true
      | false =>
        rw [show squeezeRuns keep false (x :: xs) = '-' :: squeezeRuns keep true xs from by
          simp [squeezeRuns, hx]]
        cases hsq : squeezeRuns keep true xs with
        | nil => rfl
        | cons y ys =>
          have htail := ih true
          rw [hsq] at htail
          have hy : keep y = true := squeezeRuns_true_head hsq
          simp only [noDoubleHyphen, Bool.and_eq_true]
          refine ⟨?_, htail⟩
          have hy2 := hkeep y hy
          simp [hy2]

theorem stripWhile_append (p : Char → Bool) (l : List Char) :
    stripWhile p l ++ ((l.dropWhile p).reverse.takeWhile p).reverse = l.dropWhile p := by
  have h1 : (l.dropWhile p).reverse.takeWhile p ++ (l.dropWhile p).reverse.dropWhile p
      = (l.dropWhile p).reverse := List.takeWhile_append_dropWhile _ _
  calc stripWhile p l ++ ((l.dropWhile p).reverse.takeWhile p).reverse
      = ((l.dropWhile p).reverse.takeWhile p ++ (l.dropWhile p).reverse.dropWhile p).reverse := by
        unfold stripWhile
        rw [List.reverse_append]
    _ = l.dropWhile p := by rw [h1, List.reverse_reverse]

theorem mem_stripWhile {p : Char → Bool} {l : List Char} {c : Char}
    (h : c ∈ stripWhile p l) : c ∈ l := by
  unfold stripWhile at h
  rw [List.mem_reverse] at h
  have h2 := (List.dropWhile_sublist p).mem h
  rw [List.mem_reverse] at h2
  exact (List.dropWhile_sublist p).mem h2

theorem head_dropWhile_false (p : Char → Bool) :
    ∀ (l : List Char) {c : Char} {t : List Char}, l.dropWhile p = c :: t → p c = false := by
  intro l
  induction l with
  | nil => intro c t h; simp [List.dropWhile] at h
  | cons x xs ih =>
    intro c t h
    rw [List.dropWhile_cons] at h
    split at h
    · exact ih h
    next hx =>
      cases h
      simpa using hx

theorem stripWhile_split (p : Char → Bool) (l : List Char) :
    ∃ u : List Char, stripWhile p l ++ u = l.dropWhile p :=
  ⟨_, stripWhile_append p l⟩

theorem stripWhile_head {p : Char → Bool} {l : List Char} {c : Char} {t : List Char}
    (h : stripWhile p l = c :: t) : p c = false := by
  obtain ⟨u, hu⟩ := stripWhile_split p l
  rw [h] at hu
  refine head_dropWhile_false p l (c := c) (t := t ++ u) ?_
  rw [← hu]
  simp

theorem stripWhile_last {p : Char → Bool} {l : List Char} {c : Char}
    (h : (stripWhile p l).getLast? = some c) : p c = false := by
  unfold stripWhile at h
  rw [List.getLast?_reverse] at h
  cases hE : (l.dropWhile p).reverse.dropWhile p with
  | nil => rw [hE] at h; cases h
  | cons d u =>
    rw [hE] at h
    cases h
    exact head_dropWhile_false p _ hE

theorem stripWhile_noDouble {p : Char → Bool} {l : List Char}
    (h : noDoubleHyphen l = true) : noDoubleHyphen (stripWhile p l) = true := by
  have hD : noDoubleHyphen (l.dropWhile p) = true := by
    refine noDoubleHyphen_append_right (a := l.takeWhile p) ?_
    rw [List.takeWhile_append_dropWhile]
    exact h
  obtain ⟨u, hu⟩ := stripWhile_split p l
  refine noDoubleHyphen_append_left (b := u) ?_
  rw [hu]
  exact hD

theorem slug_chars {s : String} {c : Char} (h : c ∈ (slugify s).data) :
    isLowerAlnum c = true ∨ c = '-' := by
  have h1 : c ∈ stripWhile (fun c => c == '-') (preSlug s.data) := h
  have h2 : c ∈ preSlug s.data := mem_stripWhile h1
  unfold preSlug at h2
  rcases mem_squeezeRuns h2 with h3 | h3
  · rcases mem_squeezeRuns_keep h3 with h4 | h4
    · exact Or.inl h4
    · exact Or.inr h4
  · exact Or.inr h3

theorem slug_noDouble (s : String) : noDoubleHyphen (slugify s).data = true := by
  have hX : noDoubleHyphen (preSlug s.data) = true := by
    unfold preSlug
    exact noDoubleHyphen_squeezeRuns (fun c hc => by simpa using hc) _ false
  exact stripWhile_noDouble hX

theorem slug_no_slash {s : String} : '/' ∉ (slugify s).data := by
  intro h
  rcases slug_chars h with h1 | h1
  · simp [isLowerAlnum] at h1
  · cases h1

theorem slugPatternOk_slugify (s : String) : slugPatternOk (slugify s).data = true := by
  unfold slugPatternOk
  simp only [Bool.and_eq_true]
  refine ⟨⟨⟨?_, ?_⟩, ?_⟩, ?_⟩
  · rw [List.all_eq_true]
    intro c hc
    rcases slug_chars hc with h | h
    · simp [h]
    · simp [h]
  · cases hl : (slugify s).data with
    | nil => rfl
    | cons c t =>
      have hl2 : stripWhile (fun c => c == '-') (preSlug s.data) = c :: t := hl
      have hc := stripWhile_head hl2
      simpa using hc
  · cases hl : ((slugify s).data).getLast? with
    | none => rfl
    | some c =>
      have hl2 : (stripWhile (fun c => c == '-') (preSlug s.data)).getLast? = some c := hl
      have hc := stripWhile_last hl2
      simpa using hc
  · exact slug_noDouble s

theorem scaledAmount_one (n : Nat) : scaledAmount 1 n = n := by
  unfold scaledAmount
  rw [Rat.num_one, Rat.den_one]
  simp [Int.tdiv_one]

theorem takeWhile_nil_dropWhile {p : Char → Bool} {l : List Char}
    (h : l.takeWhile p = []) : l.dropWhile p = l := by
  have h2 := List.takeWhile_append_dropWhile p l
  rw [h] at h2
  simpa using h2

theorem scaleAux_dollar (m : Rat) (f : Nat) (cs : List Char) :
    scaleAux m (f + 1) ('$' :: cs) =
      if !(cs.takeWhile amtChar).isEmpty
          && (cs.takeWhile amtChar
            == renderAmount (natOfDigits ((cs.takeWhile amtChar).filter Char.isDigit))) then
        '$' ::
          (renderAmount (scaledAmount m (natOfDigits ((cs.takeWhile amtChar).filter Char.isDigit)))
            ++ scaleAux m f (cs.dropWhile amtChar))
      else '$' :: (cs.takeWhile amtChar ++ scaleAux m f (cs.dropWhile amtChar)) := by
  simp [scaleAux]

theorem scaleAux_other (m : Rat) (f : Nat) (c : Char) (cs : List Char) (hc : c ≠ '$') :
    scaleAux m (f + 1) (c :: cs) = c :: scaleAux m f cs := by
  simp [scaleAux, hc]

theorem scaleAux_one : ∀ (fuel : Nat) (l : List Char), l.length ≤ fuel →
    scaleAux 1 fuel l = l := by
  intro fuel
  induction fuel with
  | zero => intro l h; rfl
  | succ f ih =>
    intro l h
    cases l with
    | nil => rfl
    | cons c cs =>
      have hcs : cs.length ≤ f := by
        simp only [List.length_cons] at h
        omega
      have hrest : (cs.dropWhile amtChar).length ≤ f :=
        le_trans (List.dropWhile_sublist amtChar).length_le hcs
      by_cases hc : c = '$'
      · subst hc
        rw [scaleAux_dollar]
        by_cases hcond : (!(cs.takeWhile amtChar).isEmpty
            && (cs.takeWhile amtChar
              == renderAmount (natOfDigits ((cs.takeWhile amtChar).filter Char.isDigit)))) = true
        · have hspan : cs.takeWhile amtChar
              = renderAmount (natOfDigits ((cs.takeWhile amtChar).filter Char.isDigit)) := by
            have h2 := ((Bool.and_eq_true _ _).mp hcond).2
            exact beq_iff_eq.mp h2
          rw [if_pos hcond, scaledAmount_one, ← hspan, ih _ hrest,
            List.takeWhile_append_dropWhile]
        · rw [if_neg hcond, ih _ hrest, List.takeWhile_append_dropWhile]
      · rw [scaleAux_other 1 f c cs hc, ih _ hcs]

theorem scaleAux_noToken (m : Rat) : ∀ (fuel : Nat) (l : List Char), l.length ≤ fuel →
    noToken l = true → scaleAux m fuel l = l := by
  intro fuel
  induction fuel with
  | zero => intro l h ht; rfl
  | succ f ih =>
    intro l h ht
    cases l with
    | nil => rfl
    | cons c cs =>
      have hcs : cs.length ≤ f := by
        simp only [List.length_cons] at h
        omega
      simp only [noToken, Bool.and_eq_true] at ht
      by_cases hc : c = '$'
      · subst hc
        have hspan : (cs.takeWhile amtChar).isEmpty = true := by
          rcases (Bool.or_eq_true _ _).mp ht.1 with h1 | h1
          · simp at h1
          · exact h1
        have hspan2 : cs.takeWhile amtChar = [] := by simpa using hspan
        rw [scaleAux_dollar, if_neg (by simp [hspan2]), hspan2,
          takeWhile_nil_dropWhile hspan2, List.nil_append, ih _ hcs ht.2]
      · rw [scaleAux_other m f c cs hc, ih _ hcs ht.2]

theorem string_eq_iff_data {s t : String} : s = t ↔ s.data = t.data :=
  ⟨fun h => h ▸ rfl, String.ext⟩

theorem strAppend_cancel_left {s a b : String} (h : s ++ a = s ++ b) : a = b := by
  rw [string_eq_iff_data] at h ⊢
  simp only [String.data_append] at h
  exact List.append_cancel_left h

theorem strAppend_assoc (a b c : String) : (a ++ b) ++ c = a ++ (b ++ c) := by
  rw [string_eq_iff_data]
  simp [String.data_append, List.append_assoc]

theorem wrap_slash_inj {a b : String} :
    ("/" ++ a ++ "/" : String) = "/" ++ b ++ "/" ↔ a = b := by
  constructor
  · intro h
    rw [string_eq_iff_data] at h
    simp only [String.data_append] at h
    exact String.ext (List.append_cancel_left (List.append_cancel_right h))
  · intro h
    rw [h]

theorem append_slash_split : ∀ {a1 : List Char} {a2 b1 b2 : List Char}, '/' ∉ a1 → '/' ∉ a2 →
    a1 ++ '/' :: b1 = a2 ++ '/' :: b2 → a1 = a2 ∧ b1 = b2 := by
  intro a1
  induction a1 with
  | nil =>
    intro a2 b1 b2 h1 h2 h
    cases a2 with
    | nil => simpa using h
    | cons y t2 =>
      simp only [List.nil_append, List.cons_append] at h
      injection h with hy htl
      subst hy
      exact absurd (List.mem_cons_self _ _) h2
  | cons x t1 ih =>
    intro a2 b1 b2 h1 h2 h
    cases a2 with
    | nil =>
      simp only [List.cons_append, List.nil_append] at h
      injection h with hy htl
      subst hy
      exact absurd (List.mem_cons_self _ _) h1
    | cons y t2 =>
      simp only [List.cons_append] at h
      injection h with hxy htl
      subst hxy
      have h1b : '/' ∉ t1 := fun hm => h1 (List.mem_cons_of_mem _ hm)
      have h2b : '/' ∉ t2 := fun hm => h2 (List.mem_cons_of_mem _ hm)
      obtain ⟨ha, hb⟩ := ih h1b h2b htl
      exact ⟨by rw [ha], hb⟩

theorem listStartsWith_nil (x : List Char) : listStartsWith x [] = true := by
  cases x <;> rfl

theorem listStartsWith_append (p r : List Char) : listStartsWith (p ++ r) p = true := by
  induction p with
  | nil => exact listStartsWith_nil r
  | cons x xs ih => simp [listStartsWith, ih]

theorem slashWrapped_startsWith_false (K : String) {p : String} {d : Char} {t : List Char}
    (hp : p.data = d :: t) (hd : d ≠ '/') :
    strStartsWith ("/" ++ K ++ "/") p = false := by
  unfold strStartsWith
  rw [hp]
  simp only [String.data_append]
  simp only [List.append_assoc, List.singleton_append]
  have h0 : ('/' == d) = false := beq_eq_false_iff_ne.mpr (Ne.symm hd)
  simp [listStartsWith, h0]

theorem canonical_for_slashWrapped (mode : Mode) (K : String) :
    canonical_for mode ("/" ++ K ++ "/") = SITE_ORIGIN ++ ("/" ++ K ++ "/") := by
  unfold canonical_for
  rw [slashWrapped_startsWith_false K (p := "http://") rfl (by decide),
    slashWrapped_startsWith_false K (p := "https://") rfl (by decide)]
  rw [if_neg (by simp)]
  rw [if_pos (by decide : SITE_ORIGIN ≠ "")]

theorem subdomain_base_ne (subBase : String) : subdomain_base subBase ≠ "" := by
  unfold subdomain_base
  by_cases hb : subBase ≠ ""
  · rw [if_pos hb]; exact hb
  · rw [if_neg hb, if_pos (by decide : SITE_ORIGIN ≠ "")]
    decide

theorem abs_sub_eq (subBase slug : String) :
    abs_city_origin_subdomain subBase slug =
      "https://" ++ slug ++ "." ++ subdomain_base subBase ++ "/" := by
  unfold abs_city_origin_subdomain
  rw [if_neg (subdomain_base_ne subBase)]

theorem canonical_for_abs (mode : Mode) (s : String) :
    canonical_for mode ("https://" ++ s) = "https://" ++ s := by
  have h2 : strStartsWith ("https://" ++ s) "https://" = true := by
    unfold strStartsWith
    rw [String.data_append]
    exact listStartsWith_append _ _
  unfold canonical_for
  rw [h2]
  simp

theorem subdomain_abs_inj {subBase a b : String}
    (h : abs_city_origin_subdomain subBase a = abs_city_origin_subdomain subBase b) :
    a = b := by
  rw [abs_sub_eq, abs_sub_eq] at h
  rw [string_eq_iff_data] at h
  simp only [String.data_append, List.append_assoc] at h
  have h2 := List.append_cancel_left h
  exact String.ext (List.append_cancel_right h2)

theorem pyUpper_eq_empty {s : String} (h : pyUpper s = "") : s = "" := by
  have h2 : s.data.map Char.toUpper = [] := congrArg String.data h
  have h3 : s.data = [] := List.map_eq_nil_iff.mp h2
  exact String.ext h3

theorem glist_groupInsert {α : Type} (m : List (String × List α)) (k k2 : String) (v : α) :
    glist (groupInsert m k v) k2 =
      if k2 = k then glist m k2 ++ [v] else glist m k2 := by
  induction m with
  | nil =>
    by_cases hk : k2 = k
    · subst hk
      simp [groupInsert, glist]
    · have hk2 : ¬(k = k2) := fun h => hk h.symm
      simp [groupInsert, glist, hk, hk2]
  | cons g t ih =>
    obtain ⟨k3, l⟩ := g
    by_cases h3 : k3 = k
    · subst h3
      by_cases hk : k2 = k3
      · subst hk
        simp [groupInsert, glist]
      · have hk2 : ¬(k3 = k2) := fun h => hk h.symm
        simp [groupInsert, glist, hk, hk2]
    · have e : groupInsert ((k3, l) :: t) k v = (k3, l) :: groupInsert t k v := by
        simp [groupInsert, h3]
      rw [e]
      by_cases hk : k3 = k2
      · have hne : ¬(k2 = k) := fun h => h3 (hk.trans h)
        rw [show glist ((k3, l) :: groupInsert t k v) k2 = l from by simp [glist, hk]]
        rw [if_neg hne]
        simp [glist, hk]
      · rw [show glist ((k3, l) :: groupInsert t k v) k2 = glist (groupInsert t k v) k2 from by
          simp [glist, hk]]
        rw [ih]
        rw [show glist ((k3, l) :: t) k2 = glist t k2 from by simp [glist, hk]]

theorem olook_groupInsert {α : Type} (m : List (String × List α)) (k k2 : String) (v : α) :
    olook (groupInsert m k v) k2 =
      if k2 = k then some (glist m k2 ++ [v]) else olook m k2 := by
  induction m with
  | nil =>
    by_cases hk : k2 = k
    · subst hk
      simp [groupInsert, olook, glist]
    · have hk2 : ¬(k = k2) := fun h => hk h.symm
      simp [groupInsert, olook, glist, hk, hk2]
  | cons g t ih =>
    obtain ⟨k3, l⟩ := g
    by_cases h3 : k3 = k
    · subst h3
      by_cases hk : k2 = k3
      · subst hk
        simp [groupInsert, olook, glist]
      · have hk2 : ¬(k3 = k2) := fun h => hk h.symm
        simp [groupInsert, olook, glist, hk, hk2]
    · have e : groupInsert ((k3, l) :: t) k v = (k3, l) :: groupInsert t k v := by
        simp [groupInsert, h3]
      rw [e]
      by_cases hk : k3 = k2
      · have hne : ¬(k2 = k) := fun h => h3 (hk.trans h)
        rw [show olook ((k3, l) :: groupInsert t k v) k2 = some l from by simp [olook, hk]]
        rw [if_neg hne]
        simp [olook, hk]
      · rw [show olook ((k3, l) :: groupInsert t k v) k2 = olook (groupInsert t k v) k2 from by
          simp [olook, hk]]
        rw [ih]
        rw [show olook ((k3, l) :: t) k2 = olook t k2 from by simp [olook, hk],
          show glist ((k3, l) :: t) k2 = glist t k2 from by simp [glist, hk]]

theorem olook_fold (cs : List CityRec) :
    ∀ (m : List (String × List Rat)) (st : String),
      olook (cs.foldl (fun m r => groupInsert m r.2.1 r.2.2) m) st =
        if colsOf cs st = [] then olook m st else some (glist m st ++ colsOf cs st) := by
  induction cs with
  | nil => intro m st; simp [colsOf]
  | cons r rs ih =>
    intro m st
    rw [List.foldl_cons, ih, olook_groupInsert, glist_groupInsert]
    by_cases hr : r.2.1 = st
    · subst hr
      rw [if_pos rfl, if_pos rfl]
      have hcols : colsOf (r :: rs) r.2.1 = r.2.2 :: colsOf rs r.2.1 := by
        simp [colsOf]
      rw [hcols]
      by_cases h0 : colsOf rs r.2.1 = []
      · rw [if_pos h0, if_neg (show ¬(r.2.2 :: colsOf rs r.2.1 = []) by simp), h0]
      · rw [if_neg h0, if_neg (show ¬(r.2.2 :: colsOf rs r.2.1 = []) by simp)]
        simp
    · have hsr : ¬(st = r.2.1) := fun h => hr h.symm
      rw [if_neg hsr, if_neg hsr]
      have hcols : colsOf (r :: rs) st = colsOf rs st := by
        simp [colsOf, List.filter_cons, hr]
      rw [hcols]

theorem olook_map_mean (m : List (String × List Rat)) (st : String) :
    olook (m.map (fun g => (g.1, g.2.sum / (g.2.length : Rat)))) st
      = (olook m st).map (fun l => l.sum / (l.length : Rat)) := by
  induction m with
  | nil => rfl
  | cons g t ih =>
    obtain ⟨k, l⟩ := g
    by_cases hk : k = st
    · simp [olook, hk]
    · simp [olook, hk, ih]

theorem state_col_mean (cities : List CityRec) (st : String) :
    olook (generate_state_to_col_map cities) st =
      if colsOf cities st = [] then none
      else some ((colsOf cities st).sum / ((colsOf cities st).length : Rat)) := by
  unfold generate_state_to_col_map total_state_cols
  rw [olook_map_mean, olook_fold]
  by_cases h0 : colsOf cities st = []
  · rw [if_pos h0, if_pos h0]
    rfl
  · rw [if_neg h0, if_neg h0]
    simp [glist]

theorem charListLe_total : ∀ (x y : List Char),
    charListLe x y = true ∨ charListLe y x = true := by
  intro x
  induction x with
  | nil => intro y; exact Or.inl rfl
  | cons a xs ih =>
    intro y
    cases y with
    | nil => exact Or.inr rfl
    | cons b ys =>
      by_cases h1 : a.toNat < b.toNat
      · exact Or.inl (by simp [charListLe, h1])
      · by_cases h2 : b.toNat < a.toNat
        · exact Or.inr (by simp [charListLe, h2])
        · rcases ih ys with h | h
          · refine Or.inl ?_
            simp only [charListLe, if_neg h1, if_neg h2]
            exact h
          · refine Or.inr ?_
            simp only [charListLe, if_neg h2, if_neg h1]
            exact h

theorem charListLe_trans : ∀ (x y z : List Char),
    charListLe x y = true → charListLe y z = true → charListLe x z = true := by
  intro x
  induction x with
  | nil => intro y z h1 h2; rfl
  | cons a xs ih =>
    intro y z h1 h2
    cases y with
    | nil => simp [charListLe] at h1
    | cons b ys =>
      cases z with
      | nil => simp [charListLe] at h2
      | cons c zs =>
        simp only [charListLe] at h1 h2 ⊢
        by_cases hab : a.toNat < b.toNat
        · by_cases hbc : b.toNat < c.toNat
          · rw [if_pos (by omega : a.toNat < c.toNat)]
          · by_cases hcb : c.toNat < b.toNat
            · rw [if_neg hbc, if_pos hcb] at h2
              simp at h2
            · rw [if_pos (by omega : a.toNat < c.toNat)]
        · by_cases hba : b.toNat < a.toNat
          · rw [if_neg hab, if_pos hba] at h1
            simp at h1
          · by_cases hbc : b.toNat < c.toNat
            · rw [if_pos (by omega : a.toNat < c.toNat)]
            · by_cases hcb : c.toNat < b.toNat
              · rw [if_neg hbc, if_pos hcb] at h2
                simp at h2
              · rw [if_neg (by omega : ¬a.toNat < c.toNat),
                  if_neg (by omega : ¬c.toNat < a.toNat)]
                rw [if_neg hab, if_neg hba] at h1
                rw [if_neg hbc, if_neg hcb] at h2
                exact ih ys zs h1 h2

theorem sorted_glist_cities_by_state (cities : List CityRec) (st : String) :
    List.Sorted cityLE (glist (cities_by_state cities) st) := by
  haveI : IsTotal CityRec cityLE := ⟨fun a b => charListLe_total _ _⟩
  haveI : IsTrans CityRec cityLE := ⟨fun a b c h1 h2 => charListLe_trans _ _ _ h1 h2⟩
  unfold cities_by_state
  generalize (cities.foldl (fun m r => groupInsert m r.2.1 r) []) = m
  induction m with
  | nil => exact List.sorted_nil
  | cons g t ih =>
    obtain ⟨k, l⟩ := g
    simp only [List.map_cons]
    by_cases hk : k = st
    · rw [show glist ((k, List.insertionSort cityLE l)
          :: t.map (fun g => (g.1, List.insertionSort cityLE g.2))) st
          = List.insertionSort cityLE l from by simp [glist, hk]]
      exact List.sorted_insertionSort _ _
    · rw [show glist ((k, List.insertionSort cityLE l)
          :: t.map (fun g => (g.1, List.insertionSort cityLE g.2))) st
          = glist (t.map (fun g => (g.1, List.insertionSort cityLE g.2))) st from by
        simp [glist, hk]]
      exact ih

theorem flat_path_shape (a b : String) :
    ("/" ++ a ++ "-" ++ b ++ "/" : String) = "/" ++ (a ++ "-" ++ b) ++ "/" := by
  rw [string_eq_iff_data]
  simp [String.data_append, List.append_assoc]

theorem state_path_shape (a b : String) :
    ("/" ++ a ++ "/" ++ b ++ "/" : String) = "/" ++ (a ++ "/" ++ b) ++ "/" := by
  rw [string_eq_iff_data]
  simp [String.data_append, List.append_assoc]

theorem abs_shape (a b : String) :
    ("https://" ++ a ++ "." ++ b ++ "/" : String) = "https://" ++ (a ++ "." ++ b ++ "/") := by
  rw [string_eq_iff_data]
  simp [String.data_append, List.append_assoc]

theorem flat_path_inj (c1 s1 c2 s2 : String) :
    rel_city_path_regular c1 s1 = rel_city_path_regular c2 s2 ↔
      (slugify c1 ++ "-" ++ slugify s1 : String) = slugify c2 ++ "-" ++ slugify s2 := by
  unfold rel_city_path_regular
  rw [flat_path_shape, flat_path_shape, wrap_slash_inj]

theorem state_path_inj (c1 s1 c2 s2 : String) :
    rel_city_path_state c1 s1 = rel_city_path_state c2 s2 ↔
      (slugify s1 = slugify s2 ∧ slugify c1 = slugify c2) := by
  constructor
  · intro h
    have hd := string_eq_iff_data.mp h
    unfold rel_city_path_state at hd
    simp only [String.data_append, List.append_assoc, List.singleton_append,
      List.cons_append, List.nil_append] at hd
    rcases List.cons.inj hd with ⟨_, hd2⟩
    obtain ⟨hs, hc⟩ := append_slash_split slug_no_slash slug_no_slash hd2
    exact ⟨String.ext hs, String.ext (List.append_cancel_right hc)⟩
  · intro h
    unfold rel_city_path_state
    rw [h.1, h.2]

theorem canonical_rel_regular (mode : Mode) (c s : String) :
    canonical_for mode (rel_city_path_regular c s)
      = SITE_ORIGIN ++ rel_city_path_regular c s := by
  unfold rel_city_path_regular
  rw [flat_path_shape, canonical_for_slashWrapped, ← flat_path_shape]

theorem canonical_rel_state (mode : Mode) (c s : String) :
    canonical_for mode (rel_city_path_state c s)
      = SITE_ORIGIN ++ rel_city_path_state c s := by
  unfold rel_city_path_state
  rw [state_path_shape, canonical_for_slashWrapped, ← state_path_shape]

theorem canonical_abs_sub (mode : Mode) (subBase slug : String) :
    canonical_for mode (abs_city_origin_subdomain subBase slug)
      = abs_city_origin_subdomain subBase slug := by
  rw [abs_sub_eq, abs_shape, canonical_for_abs, ← abs_shape, ← abs_sub_eq]

theorem flat_pair_iff (c1 s1 c2 s2 : String) :
    (rel_city_path_regular c1 s1 = rel_city_path_regular c2 s2 ↔
      ((slugify c1 ++ "-" ++ slugify s1, "") : String × String)
        = (slugify c2 ++ "-" ++ slugify s2, ""))
    ∧ (∀ mode : Mode, canonical_for mode (rel_city_path_regular c1 s1)
        = canonical_for mode (rel_city_path_regular c2 s2) ↔
      ((slugify c1 ++ "-" ++ slugify s1, "") : String × String)
        = (slugify c2 ++ "-" ++ slugify s2, "")) := by
  constructor
  · constructor
    · intro h
      rw [(flat_path_inj c1 s1 c2 s2).mp h]
    · intro h
      have hk : (slugify c1 ++ "-" ++ slugify s1 : String)
          = slugify c2 ++ "-" ++ slugify s2 := congrArg Prod.fst h
      exact (flat_path_inj c1 s1 c2 s2).mpr hk
  · intro mode
    rw [canonical_rel_regular, canonical_rel_regular]
    constructor
    · intro h
      rw [(flat_path_inj c1 s1 c2 s2).mp (strAppend_cancel_left h)]
    · intro h
      have hk : (slugify c1 ++ "-" ++ slugify s1 : String)
          = slugify c2 ++ "-" ++ slugify s2 := congrArg Prod.fst h
      rw [(flat_path_inj c1 s1 c2 s2).mpr hk]

/-- C1 (amended): for every mode, two records receive the same city output
path — and the same city canonical URL — exactly when the mode's derived
path key coincides: the combined `{slugify(city)}-{slugify(state)}` slug for
the flat modes, the `(slugify(state), slugify(city))` pair for state mode,
and the subdomain label for subdomain mode. Injectivity therefore holds only
over records with distinct keys; distinct `(city, state)` pairs with equal
keys collide (see the counterexample). -/
theorem c1_city_paths_injective_iff_key (mode : Mode) (subBase c1 s1 c2 s2 : String) :
    (city_output_path mode c1 s1 = city_output_path mode c2 s2 ↔
      cityPathKey mode c1 s1 = cityPathKey mode c2 s2)
    ∧ (city_canonical mode subBase c1 s1 = city_canonical mode subBase c2 s2 ↔
      cityPathKey mode c1 s1 = cityPathKey mode c2 s2) := by
  cases mode
  case state =>
    refine ⟨?_, ?_⟩
    · show rel_city_path_state c1 s1 = rel_city_path_state c2 s2 ↔
        ((slugify s1, slugify c1) : String × String) = (slugify s2, slugify c2)
      constructor
      · intro h
        obtain ⟨hs, hc⟩ := (state_path_inj c1 s1 c2 s2).mp h
        rw [hs, hc]
      · intro h
        have hs : slugify s1 = slugify s2 := congrArg Prod.fst h
        have hc : slugify c1 = slugify c2 := congrArg Prod.snd h
        exact (state_path_inj c1 s1 c2 s2).mpr ⟨hs, hc⟩
    · show canonical_for .state (rel_city_path_state c1 s1)
          = canonical_for .state (rel_city_path_state c2 s2) ↔
        ((slugify s1, slugify c1) : String × String) = (slugify s2, slugify c2)
      rw [canonical_rel_state, canonical_rel_state]
      constructor
      · intro h
        obtain ⟨hs, hc⟩ := (state_path_inj c1 s1 c2 s2).mp (strAppend_cancel_left h)
        rw [hs, hc]
      · intro h
        have hs : slugify s1 = slugify s2 := congrArg Prod.fst h
        have hc : slugify c1 = slugify c2 := congrArg Prod.snd h
        rw [(state_path_inj c1 s1 c2 s2).mpr ⟨hs, hc⟩]
  case subdomain =>
    refine ⟨?_, ?_⟩
    · show ("/" ++ city_subdomain_slug c1 s1 ++ "/" : String)
          = "/" ++ city_subdomain_slug c2 s2 ++ "/" ↔
        ((city_subdomain_slug c1 s1, "") : String × String) = (city_subdomain_slug c2 s2, "")
      constructor
      · intro h
        rw [wrap_slash_inj.mp h]
      · intro h
        have hk : city_subdomain_slug c1 s1 = city_subdomain_slug c2 s2 :=
          congrArg Prod.fst h
        exact wrap_slash_inj.mpr hk
    · show canonical_for .subdomain
            (abs_city_origin_subdomain subBase (city_subdomain_slug c1 s1))
          = canonical_for .subdomain
            (abs_city_origin_subdomain subBase (city_subdomain_slug c2 s2)) ↔
        ((city_subdomain_slug c1 s1, "") : String × String) = (city_subdomain_slug c2 s2, "")
      rw [canonical_abs_sub, canonical_abs_sub]
      constructor
      · intro h
        rw [subdomain_abs_inj h]
      · intro h
        have hk : city_subdomain_slug c1 s1 = city_subdomain_slug c2 s2 :=
          congrArg Prod.fst h
        rw [hk]
  case regular =>
    exact ⟨(flat_pair_iff c1 s1 c2 s2).1, (flat_pair_iff c1 s1 c2 s2).2 .regular⟩
  case cost =>
    exact ⟨(flat_pair_iff c1 s1 c2 s2).1, (flat_pair_iff c1 s1 c2 s2).2 .cost⟩
  case regular_city_only =>
    exact ⟨(flat_pair_iff c1 s1 c2 s2).1, (flat_pair_iff c1 s1 c2 s2).2 .regular_city_only⟩

/-- C1 counterexample: "St. Paul" and "St Paul" are distinct city names for
the same state, yet in regular mode their output paths and canonical URLs
coincide, refuting injectivity over distinct unique `(city, state)` pairs. -/
theorem c1_counterexample :
    (("St. Paul", "MN") : String × String) ≠ ("St Paul", "MN")
    ∧ city_output_path .regular "St. Paul" "MN" = city_output_path .regular "St Paul" "MN"
    ∧ city_canonical .regular "" "St. Paul" "MN" = city_canonical .regular "" "St Paul" "MN" := by
  refine ⟨by decide, by decide, by decide⟩

/-- C2 (amended): the city output path is
`/{slugify(city)}-{slugify(state)}/` in modes regular, cost and
regular_city_only; `/{slugify(state)}/{slugify(city)}/` in state mode; and
`/{label}/` in subdomain mode — where the label is the city name
concatenated with the state code, lowercased, with every space character
(not every whitespace character) removed. -/
theorem c2_city_output_path_formulas : ∀ city st : String,
    city_output_path .regular city st = "/" ++ slugify city ++ "-" ++ slugify st ++ "/"
    ∧ city_output_path .cost city st = "/" ++ slugify city ++ "-" ++ slugify st ++ "/"
    ∧ city_output_path .regular_city_only city st
        = "/" ++ slugify city ++ "-" ++ slugify st ++ "/"
    ∧ city_output_path .state city st = "/" ++ slugify st ++ "/" ++ slugify city ++ "/"
    ∧ city_output_path .subdomain city st
        = "/" ++ String.mk ((pyLowerData (city.data ++ st.data)).filter (fun c => c != ' '))
            ++ "/" :=
  fun _ _ => ⟨rfl, rfl, rfl, rfl, rfl⟩

/-- C2 counterexample: for a city name containing a tab, the source's label
(`.replace(" ", "")` removes only spaces) differs from the spec's
"all whitespace removed" label, so the subdomain output path is not
`/{label}/` for the spec's label. -/
theorem c2_counterexample :
    city_subdomain_slug "a\tb" "TX" = "a\tbtx"
    ∧ subdomain_label_spec "a\tb" "TX" = "abtx"
    ∧ city_output_path .subdomain "a\tb" "TX"
        ≠ "/" ++ subdomain_label_spec "a\tb" "TX" ++ "/" := by
  refine ⟨by decide, by decide, by decide⟩

/-- C3 (amended): the sitemap URL list of `build_regular` has `4 + N`
entries (home, cost index, how-to, contact, one per city), but the one of
`build_cost` has `3 + 2 N` entries: the cost mode's feature flags disable
the how-to page, leaving home, cost index and contact plus one city page
and one cost page per city. -/
theorem c3_sitemap_counts : ∀ cities : List CityRec,
    (build_regular_urls cities).length = 4 + cities.length
    ∧ (build_cost_urls cities).length = 3 + 2 * cities.length := by
  intro cities
  constructor
  · simp [build_regular_urls, build_common_urls, feature_cost, feature_howto, feature_contact]
    omega
  · simp [build_cost_urls, build_common_urls, feature_cost, feature_howto, feature_contact]
    omega

/-- C3 counterexample: with one city, the cost-mode sitemap has 5 URL
entries, not `4 + 2 * 1 = 6` as the claim states. -/
theorem c3_counterexample :
    (build_cost_urls [("Austin", "TX", 1)]).length = 5
    ∧ (build_cost_urls [("Austin", "TX", 1)]).length ≠ 4 + 2 * 1 := by
  refine ⟨by decide, by decide⟩

/-- C4 (amended): the loader rejects rows with missing fields or an
unparseable `col`, but performs no positivity check: any parseable
multiplier, including a nonpositive one, loads successfully. -/
theorem c4_nonpositive_multiplier_loads (c s raw : String) (q : Rat)
    (hq : parseFloat? (pyStrip raw) = some q) (hq0 : q ≤ 0)
    (hc : pyStrip c ≠ "") (hs : pyStrip s ≠ "") (hr : pyStrip raw ≠ "") :
    load_cities_from_csv [(c, s, raw)] = .ok [(pyStrip c, pyUpper (pyStrip s), q)] := by
  have hst : pyUpper (pyStrip s) ≠ "" := fun h => hs (pyUpper_eq_empty h)
  unfold load_cities_from_csv load_cities_go
  rw [if_neg (by simp [hc, hst, hr])]
  rw [hq]
  rfl

/-- C4 witness: the loader accepts the zero multiplier "0". -/
theorem c4_witness :
    parseFloat? (pyStrip "0") = some 0 ∧ (0 : Rat) ≤ 0
    ∧ load_cities_from_csv [("X", "TX", "0")] = .ok [("X", "TX", 0)] := by
  have h1 : parseFloat? (pyStrip "0") = some 0 := rfl
  refine ⟨h1, le_refl 0, ?_⟩
  have h2 := c4_nonpositive_multiplier_loads "X" "TX" "0" 0 h1 (le_refl 0)
    (by decide) (by decide) (by decide)
  rw [h2]
  rfl

/-- C4 counterexample: zero and negative multipliers are accepted at load
time and silently applied to the base price range, contradicting the
claimed load-time rejection. -/
theorem c4_counterexample :
    load_cities_from_csv [("Austin", "TX", "0")] = .ok [("Austin", "TX", 0)]
    ∧ location_cost_range 0 = (0, 0)
    ∧ load_cities_from_csv [("Austin", "TX", "-2")] = .ok [("Austin", "TX", -2)]
    ∧ location_cost_range (-2) = (-160, -500) := by
  refine ⟨rfl, by decide, rfl, by decide⟩

/-- C5 (amended): `build_subdomain` emits exactly one `robots.txt` and one
`sitemap.xml`, both at the output root; every other emitted file is an
`index.html` page (so no per-city robots/sitemap pair exists). -/
theorem c5_subdomain_single_robots (cities : List CityRec) :
    ("robots.txt" ∈ build_subdomain_files cities
      ∧ "sitemap.xml" ∈ build_subdomain_files cities)
    ∧ ∀ f ∈ build_subdomain_files cities,
        f = "robots.txt" ∨ f = "sitemap.xml" ∨ ∃ p : String, f = p ++ "index.html" := by
  constructor
  · constructor <;> simp [build_subdomain_files]
  · intro f hf
    show _ ∨ _ ∨ _
    rw [show build_subdomain_files cities
        = (["contact/index.html", "index.html"]
            ++ cities.flatMap (fun r =>
              [city_subdomain_slug r.1 r.2.1 ++ "/index.html",
               city_subdomain_slug r.1 r.2.1 ++ "/contact/index.html"]))
          ++ ["robots.txt", "sitemap.xml"] from rfl] at hf
    rw [List.mem_append] at hf
    rcases hf with hf | hf
    · rw [List.mem_append] at hf
      rcases hf with hf | hf
      · simp only [List.mem_cons, List.not_mem_nil, or_false] at hf
        rcases hf with hf | hf
        · right; right; exact ⟨"contact/", by rw [hf]; rfl⟩
        · right; right; exact ⟨"", by rw [hf]; rfl⟩
      · simp only [List.mem_flatMap, List.mem_cons, List.not_mem_nil, or_false] at hf
        obtain ⟨r, hr, hf | hf⟩ := hf
        · right; right
          refine ⟨city_subdomain_slug r.1 r.2.1 ++ "/", ?_⟩
          rw [hf, strAppend_assoc]
          exact congrArg (fun t => city_subdomain_slug r.1 r.2.1 ++ t) (by rfl)
        · right; right
          refine ⟨city_subdomain_slug r.1 r.2.1 ++ "/contact/", ?_⟩
          rw [hf, strAppend_assoc]
          exact congrArg (fun t => city_subdomain_slug r.1 r.2.1 ++ t) (by rfl)
    · simp only [List.mem_cons, List.not_mem_nil, or_false] at hf
      rcases hf with hf | hf
      · left; exact hf
      · right; left; exact hf

/-- C5 witness: instance of the amended statement on the concrete file
`contact/index.html` of the empty build. -/
theorem c5_witness :
    ("contact/index.html" : String) ∈ build_subdomain_files []
    ∧ (("contact/index.html" : String) = "robots.txt"
      ∨ ("contact/index.html" : String) = "sitemap.xml"
      ∨ ∃ p : String, ("contact/index.html" : String) = p ++ "index.html") :=
  ⟨by decide, (c5_subdomain_single_robots []).2 "contact/index.html" (by decide)⟩

/-- C5 counterexample: for the single city Austin TX, the subdomain build
writes the city page `austintx/index.html` but no `austintx/robots.txt`
and no `austintx/sitemap.xml`. -/
theorem c5_counterexample :
    "austintx/index.html" ∈ build_subdomain_files [("Austin", "TX", 1)]
    ∧ "austintx/robots.txt" ∉ build_subdomain_files [("Austin", "TX", 1)]
    ∧ "austintx/sitemap.xml" ∉ build_subdomain_files [("Austin", "TX", 1)] := by
  refine ⟨by decide, by decide, by decide⟩

/-- C6: the spec-modelled `scale_embedded_amounts` is the identity at
multiplier 1.0 on every text, scales the spec's example correctly at 2.0,
and leaves a `$` not followed by digits alone for every multiplier. -/
theorem c6_scale_embedded_amounts :
    (∀ t : String, scale_embedded_amounts t 1 = t)
    ∧ scale_embedded_amounts "Cost: $1,200 and $50." 2 = "Cost: $2,400 and $100."
    ∧ ∀ m : Rat, scale_embedded_amounts "A $ sign or $x is left alone." m
        = "A $ sign or $x is left alone." := by
  refine ⟨?_, by decide, ?_⟩
  · intro t
    show String.mk (scaleAux 1 t.data.length t.data) = t
    rw [scaleAux_one t.data.length t.data (le_refl _)]
  · intro m
    show String.mk (scaleAux m _ _) = _
    rw [scaleAux_noToken m _ _ (le_refl _) (by decide)]

/-- C7: the per-state multiplier map sends every present state to the
arithmetic mean of the `col` values of that state's records, and on the
spec's two-record Texas scenario the state build emits `/tx/`,
`/tx/austin/` and `/tx/dallas/` with the `/tx/` multiplier equal to 1, so
the displayed range is the unscaled base range. -/
theorem c7_state_mean_and_scenario :
    (∀ (cities : List CityRec) (st : String),
      olook (generate_state_to_col_map cities) st =
        if colsOf cities st = [] then none
        else some ((colsOf cities st).sum / ((colsOf cities st).length : Rat)))
    ∧ "/tx/" ∈ build_state_urls demo_cities
    ∧ "/tx/austin/" ∈ build_state_urls demo_cities
    ∧ "/tx/dallas/" ∈ build_state_urls demo_cities
    ∧ olook (generate_state_to_col_map demo_cities) "TX" = some 1
    ∧ location_cost_range 1 = (cost_low, cost_high) := by
  refine ⟨state_col_mean, by decide, by decide, by decide, ?_, by decide⟩
  rw [state_col_mean]
  have hcols : colsOf demo_cities "TX" = [11 / 10, 9 / 10] := rfl
  rw [hcols, if_neg (by simp)]
  rw [Option.some_inj]
  simp only [List.sum_cons, List.sum_nil, List.length_cons, List.length_nil]
  norm_num

/-- C8: `slugify` is pure and total, its output always matches
`[a-z0-9]+(-[a-z0-9]+)*` or is empty, and the spec's three examples hold. -/
theorem c8_slugify_spec :
    (∀ s : String, slugPatternOk (slugify s).data = true)
    ∧ slugify "St. Paul\x27s" = "st-paul-s"
    ∧ slugify "O\x27Fallon" = "o-fallon"
    ∧ slugify "" = "" :=
  ⟨slugPatternOk_slugify, by decide, by decide, by decide⟩

/-- C9 (amended): only the state pages' city lists are sorted
alphabetically by lowercased city name; the home page's service-area list
and the cost-index page's city list preserve the CSV input order. -/
theorem c9_listing_order :
    (∀ (cities : List CityRec) (st : String),
      List.Sorted cityLE (glist (cities_by_state cities) st))
    ∧ (∀ cities : List CityRec,
      homepage_city_list cities = cities.map (fun r => (r.1, r.2.1))
      ∧ cost_index_city_list cities = cities.map (fun r => (r.1, r.2.1))) :=
  ⟨sorted_glist_cities_by_state, fun _ => ⟨rfl, rfl⟩⟩

/-- C9 counterexample: with CSV order Dallas before Austin, the home page
and cost-index listings are not alphabetical (while the state page's list
is), refuting the claim that all city index listings are sorted. -/
theorem c9_counterexample :
    homepage_city_list demo_unsorted = [("Dallas", "TX"), ("Austin", "TX")]
    ∧ sortedByCityCI (homepage_city_list demo_unsorted) = false
    ∧ sortedByCityCI (cost_index_city_list demo_unsorted) = false
    ∧ sortedByCityCI (state_page_city_list demo_unsorted "TX") = true := by
  refine ⟨by decide, by decide, by decide, by decide⟩

/-- C10: the site origin is the fixed brand-derived string
`https://emergencymaintenanceexperts.com` (no configuration input);
`canonical_for` prefixes it to every relative path; the subdomain base is
never empty (so the root-relative fallback of `abs_city_origin_subdomain`
is unreachable for every environment value); and every robots file carries
the absolute sitemap URL. -/
theorem c10_origin_and_canonicals :
    SITE_ORIGIN = "https://emergencymaintenanceexperts.com"
    ∧ (∀ (mode : Mode) (p : String),
        strStartsWith p "http://" = false → strStartsWith p "https://" = false →
        canonical_for mode p = SITE_ORIGIN ++ p)
    ∧ (∀ subBase slug : String,
        subdomain_base subBase ≠ ""
        ∧ abs_city_origin_subdomain subBase slug
            = "https://" ++ slug ++ "." ++ subdomain_base subBase ++ "/")
    ∧ (∀ mode : Mode, robots_txt mode
        = "User-agent: *\nAllow: /\nSitemap: "
            ++ "https://emergencymaintenanceexperts.com/sitemap.xml" ++ "\n") := by
  refine ⟨by decide, ?_, ?_, ?_⟩
  · intro mode p h1 h2
    unfold canonical_for
    rw [h1, h2]
    rw [if_neg (by simp)]
    rw [if_pos (by decide : SITE_ORIGIN ≠ "")]
  · intro subBase slug
    exact ⟨subdomain_base_ne subBase, abs_sub_eq subBase slug⟩
  · intro mode
    cases mode <;> decide

/-- C10 witness: instance of the canonical-prefix statement at the
sitemap path in regular mode. -/
theorem c10_witness :
    strStartsWith "/sitemap.xml" "http://" = false
    ∧ strStartsWith "/sitemap.xml" "https://" = false
    ∧ canonical_for .regular "/sitemap.xml" = SITE_ORIGIN ++ "/sitemap.xml" :=
  ⟨by decide, by decide,
    c10_origin_and_canonicals.2.1 .regular "/sitemap.xml" (by decide) (by decide)⟩

end SiteGen
